import Mathlib

/-!
Shallow embedding of the API client in `src/lib/api.ts` of the
`where-is-the-library---front` repository.

The client is a thin `fetch` wrapper.  We model:
  * JavaScript values produced by `JSON.parse` (`JsValue`);
  * the response normalization `handleResponse`;
  * query-parameter serialization `buildUrl` / `URLSearchParams`;
  * the auth-token state machine (`persistAuthToken`, `setAuthToken`,
    `clearAuthToken`, `getAuthToken`, `withAuthHeaders`) together with an
    explicit environment (browser presence, storage failures) covering the
    `try`/`catch` branches in the source;
  * `extractAuthToken` and `authApi.login`;
  * the password-stripping logic of `membersApi.create` / `membersApi.update`.

`JSON.parse` itself is platform code, not repository code: it enters the
model as an explicit `parse : String → Option JsValue` argument, so every
theorem quantifies over the parser's behaviour at the relevant body text.
JavaScript numbers are modelled as `Int` (the repository only ever sends
strings, booleans and integers as query values and never inspects numeric
JSON fields beyond truthiness and stringification of integers).
-/

namespace ApiClient

/-! ### Kernel-reducible string helpers

JavaScript's `trim`, `toLowerCase` (on ASCII header names) and
`String.prototype.includes`, implemented over character lists. -/

/-- JavaScript `String.prototype.trim`: strips leading and trailing whitespace. -/
def jsTrim (s : String) : String :=
  String.mk (((s.data.dropWhile Char.isWhitespace).reverse.dropWhile Char.isWhitespace).reverse)

/-- ASCII lowercasing of a single character, as header-name normalization
applies. -/
def lowerChar (c : Char) : Char :=
  if 65 ≤ c.toNat ∧ c.toNat ≤ 90 then Char.ofNat (c.toNat + 32) else c

/-- ASCII lowercasing of a header name. -/
def lowerAscii (s : String) : String :=
  String.mk (s.data.map lowerChar)

/-- Whether `pat` is a prefix of `l`. -/
def charsPrefixOf : List Char → List Char → Bool
  | [], _ => true
  | _ :: _, [] => false
  | a :: as, b :: bs => a == b && charsPrefixOf as bs

/-- Whether `pat` occurs inside `l`. -/
def charsContains (pat : List Char) : List Char → Bool
  | [] => pat.isEmpty
  | c :: rest => charsPrefixOf pat (c :: rest) || charsContains pat rest

/-- A JavaScript value as produced by `JSON.parse`.  Objects keep their
fields as an association list in insertion order; JS property lookup after
`JSON.parse` sees the *last* binding of a duplicated key. -/
inductive JsValue where
  | null
  | bool (b : Bool)
  | num (n : Int)
  | str (s : String)
  | arr (elems : List JsValue)
  | obj (fields : List (String × JsValue))
deriving Repr, BEq

/-- JS property read `o[k]` on an object built by `JSON.parse`: the last
binding of `k` wins (later duplicate keys overwrite earlier ones). -/
def objGet (fields : List (String × JsValue)) (k : String) : Option JsValue :=
  (fields.filterMap fun p => if p.1 = k then some p.2 else none).getLast?

/-- JavaScript truthiness of a JSON-derived value (`if (v)`), as used on
`(data as any).message` in `handleResponse`.  Objects and arrays are always
truthy, `null`, `false`, `0` and `""` are falsy. -/
def JsValue.truthy : JsValue → Bool
  | .null => false
  | .bool b => b
  | .num n => n != 0
  | .str s => s != ""
  | .arr _ => true
  | .obj _ => true

mutual
/-- JavaScript `String(v)` on a JSON-derived value: strings unchanged,
numbers and booleans in decimal/keyword form, `null` prints `"null"`,
arrays join their elements with `","` (with `null` elements printing as the
empty string, per `Array.prototype.join`), plain objects print
`"[object Object]"`. -/
def JsValue.toStringJs : JsValue → String
  | .null => "null"
  | .bool true => "true"
  | .bool false => "false"
  | .num n => toString n
  | .str s => s
  | .obj _ => "[object Object]"
  | .arr elems => String.intercalate "," (jsArrJoinParts elems)

/-- Element conversion used by `Array.prototype.join`: `null` becomes the
empty string, everything else goes through `String(v)`. -/
def jsArrJoinParts : List JsValue → List String
  | [] => []
  | .null :: rest => "" :: jsArrJoinParts rest
  | v :: rest => v.toStringJs :: jsArrJoinParts rest
end

/-- The `ApiError` class from `src/lib/api.ts`: a typed error carrying the HTTP
status code and a normalized message. -/
structure ApiError where
  statusCode : Nat
  message : String
deriving Repr, BEq, DecidableEq

/-- An HTTP response as seen by `handleResponse`: status, the
`content-type` header (`none` when absent), and the body text
(`none` models `response.text()` throwing, which the source catches and
treats like a missing body). -/
structure HttpResponse where
  status : Nat
  contentType : Option String
  bodyText : Option String
deriving Repr, BEq, DecidableEq

/-- JavaScript `String.prototype.includes`, used for the content-type sniff
`contentType.includes("application/json")`. -/
def containsSubstr (s pat : String) : Bool :=
  charsContains pat.data s.data

/-- The value a successful call resolves with: `undefined` for an empty
body (or JSON `null`, after the final `?? undefined`), a parsed JSON value
when the content type indicates JSON and parsing succeeds, and the raw
body text otherwise. -/
inductive RespValue where
  | absent
  | json (v : JsValue)
  | text (s : String)
deriving Repr, BEq

/-- The `data` local of `handleResponse` right before the status check:
`undefined` when the body is empty or unreadable, the parse result when the
content type indicates JSON and `JSON.parse` succeeds, the raw text when it
fails or the content type is not JSON. -/
def handledData (parse : String → Option JsValue) (resp : HttpResponse) : RespValue :=
  match resp.bodyText with
  | none => .absent
  | some t =>
    if t.length > 0 then
      if containsSubstr (resp.contentType.getD "") "application/json" then
        match parse t with
        | some v => .json v
        | none => .text t
      else .text t
    else .absent

/-- The error-message normalization of `handleResponse` for a non-ok
status: a truthy `message` field of a JSON object body is stringified; a
string body (raw text, unparseable JSON, or a JSON string) with non-blank
trim is trimmed; everything else falls back to `HTTP <status>`. -/
def errMessage (status : Nat) (data : RespValue) : String :=
  let fallback := "HTTP " ++ toString status
  match data with
  | .json (.obj fields) =>
    match objGet fields "message" with
    | some m => if m.truthy then m.toStringJs else fallback
    | none => fallback
  | .json (.str s) => if (jsTrim s).length > 0 then jsTrim s else fallback
  | .json _ => fallback
  | .text t => if (jsTrim t).length > 0 then jsTrim t else fallback
  | .absent => fallback

/-- The final `return (data as T) ?? (undefined as T)`: nullish coalescing
turns a parsed JSON `null` into `undefined`; every other value passes
through. -/
def coalesce : RespValue → RespValue
  | .json .null => .absent
  | v => v

/-- Model of `handleResponse` from `src/lib/api.ts`: `response.ok` (status in
[200,300)) resolves with the coalesced data, anything else rejects with an
`ApiError` carrying the status and the normalized message. -/
def handleResponse (parse : String → Option JsValue) (resp : HttpResponse) :
    Except ApiError RespValue :=
  let data := handledData parse resp
  if 200 ≤ resp.status ∧ resp.status < 300 then
    .ok (coalesce data)
  else
    .error ⟨resp.status, errMessage resp.status data⟩

/-! ### Query-parameter serialization (`buildUrl`) -/

/-- The type `QueryParamValue = string | number | boolean | null | absentined`
from `src/lib/api.ts` (numbers modelled as `Int`). -/
inductive QueryParamValue where
  | str (s : String)
  | num (n : Int)
  | bool (b : Bool)
  | null
  | absent
deriving Repr, BEq, DecidableEq

/-- JavaScript `String(value)` on a `QueryParamValue` that survived the
null/undefined guard. -/
def QueryParamValue.toStringJs : QueryParamValue → String
  | .str s => s
  | .num n => toString n
  | .bool true => "true"
  | .bool false => "false"
  | .null => "null"
  | .absent => "undefined"

/-- Whether `buildUrl` skips this entry: `undefined` and `null` are skipped
outright, and any other value whose stringification trims to the empty
string is skipped by the `stringValue.trim().length > 0` guard. -/
def QueryParamValue.omitted : QueryParamValue → Bool
  | .null => true
  | .absent => true
  | v => (jsTrim v.toStringJs).length == 0

/-- Model of `URLSearchParams.set`: replaces the value of the first pair with the
given name, removes any later pairs with that name, or appends the pair
when the name is absent. -/
def searchParamsSet : List (String × String) → String → String → List (String × String)
  | [], k, v => [(k, v)]
  | (k', v') :: rest, k, v =>
    if k' = k then (k, v) :: rest.filter (fun p => p.1 != k)
    else (k', v') :: searchParamsSet rest k v

/-- The query pairs accumulated by `buildUrl`'s `Object.entries(query).forEach`
loop: each non-omitted entry is `set` with its stringified value.  The
repository always builds URLs whose path carries no query string, so the
accumulation starts from no pairs. -/
def buildQueryPairs (query : List (String × QueryParamValue)) : List (String × String) :=
  query.foldl
    (fun acc kv => if kv.2.omitted then acc else searchParamsSet acc kv.1 kv.2.toStringJs)
    []

/-- The UTF-8 bytes (as `Nat`s) of one character, by code point. -/
def utf8BytesOfChar (c : Char) : List Nat :=
  let n := c.toNat
  if n < 0x80 then [n]
  else if n < 0x800 then [0xC0 + n / 64, 0x80 + n % 64]
  else if n < 0x10000 then [0xE0 + n / 4096, 0x80 + n / 64 % 64, 0x80 + n % 64]
  else [0xF0 + n / 262144, 0x80 + n / 4096 % 64, 0x80 + n / 64 % 64, 0x80 + n % 64]

/-- An uppercase hexadecimal digit. -/
def hexDigitUpper (d : Nat) : Char :=
  if d < 10 then Char.ofNat (0x30 + d) else Char.ofNat (0x41 + d - 10)

/-- One byte of `application/x-www-form-urlencoded` percent-encoding, as
`URLSearchParams` serialization applies to names and values: ASCII
alphanumerics and `*-._` stay, space becomes `+`, every other byte becomes
`%XX` with uppercase hex digits. -/
def encodeFormByte (n : Nat) : String :=
  if n = 0x20 then "+"
  else if (0x30 ≤ n ∧ n ≤ 0x39) ∨ (0x41 ≤ n ∧ n ≤ 0x5A) ∨ (0x61 ≤ n ∧ n ≤ 0x7A)
      ∨ n = 0x2A ∨ n = 0x2D ∨ n = 0x2E ∨ n = 0x5F then
    String.singleton (Char.ofNat n)
  else
    String.mk ['%', hexDigitUpper (n / 16), hexDigitUpper (n % 16)]

/-- Percent-encoding of a full string: its UTF-8 bytes, each encoded. -/
def encodeForm (s : String) : String :=
  String.join ((s.data.flatMap utf8BytesOfChar).map encodeFormByte)

/-- Serialization of the accumulated pairs, as `URL.toString` renders
`searchParams`: `k=v` joined by `&`, names and values percent-encoded. -/
def serializeQuery : List (String × String) → String
  | [] => ""
  | [p] => encodeForm p.1 ++ "=" ++ encodeForm p.2
  | p :: q :: rest => encodeForm p.1 ++ "=" ++ encodeForm p.2 ++ "&" ++ serializeQuery (q :: rest)

/-- Model of `buildUrl` from `src/lib/api.ts`, relative to a configured base URL:
strips a trailing `/` from the base, prefixes the path with `/` when
missing, and appends the serialized query pairs when any survive. -/
def buildUrl (baseUrl path : String) (query : List (String × QueryParamValue)) : String :=
  let base := if baseUrl.data.getLast? = some '/' then String.mk baseUrl.data.dropLast else baseUrl
  let normalizedPath := if path.data.head? = some '/' then path else "/" ++ path
  let pairs := buildQueryPairs query
  base ++ normalizedPath ++ (if pairs.isEmpty then "" else "?" ++ serializeQuery pairs)

/-! ### Auth-token state machine -/

/-- Behaviour of the configured `AuthTokenProvider` at one invocation: it
may throw, or return a `string | null`. -/
inductive ProviderBehavior where
  | throws
  | returns (v : Option String)
deriving Repr, BEq, DecidableEq

/-- The module-level mutable state of `src/lib/api.ts`:
`inMemoryAuthToken` and the `localStorage` entry under
`"library-auth-token"` (`storedToken`), plus the configured provider
(`none` when unconfigured). -/
structure AuthState where
  inMemoryAuthToken : Option String
  storedToken : Option String
  provider : Option ProviderBehavior
deriving Repr, BEq, DecidableEq

/-- The execution environment of one operation: whether `window` exists and
whether the `localStorage` read/write throws (the source wraps both in
`try`/`catch`). -/
structure Env where
  isBrowser : Bool
  storageReadFails : Bool
  storageWriteFails : Bool
deriving Repr, BEq, DecidableEq

/-- JS truthiness of a `string | null` variable (`if (token)`). -/
def truthyStr : Option String → Bool
  | some t => t != ""
  | none => false

/-- Model of `persistAuthToken`: always overwrites the in-memory token; in a browser
it then mirrors the change to `localStorage` (`setItem` for a truthy token,
`removeItem` otherwise), catching and ignoring storage failures. -/
def persistAuthToken (env : Env) (token : Option String) (s : AuthState) : AuthState :=
  let s1 := { s with inMemoryAuthToken := token }
  if !env.isBrowser then s1
  else if env.storageWriteFails then s1
  else if truthyStr token then { s1 with storedToken := token }
  else { s1 with storedToken := none }

/-- Model of `setAuthToken` (also `authApi.setToken`). -/
def setAuthToken (env : Env) (token : String) (s : AuthState) : AuthState :=
  persistAuthToken env (some token) s

/-- Model of `clearAuthToken` (also `authApi.clearToken`): logout. -/
def clearAuthToken (env : Env) (s : AuthState) : AuthState :=
  persistAuthToken env none s

/-- Model of `configureAuthTokenProvider`. -/
def configureAuthTokenProvider (p : Option ProviderBehavior) (s : AuthState) : AuthState :=
  { s with provider := p }

/-- Model of `getAuthToken`: provider first (a thrown error is caught; a truthy
result is cached into the in-memory token and returned), then the truthy
in-memory token, then — in a browser — the `localStorage` entry (also
cached in memory; a read failure is caught and yields `null`). -/
def getAuthToken (env : Env) (s : AuthState) : Option String × AuthState :=
  let viaProvider : Option (Option String × AuthState) :=
    match s.provider with
    | some (.returns (some t)) =>
      if t != "" then some (some t, { s with inMemoryAuthToken := some t }) else none
    | some (.returns none) => none
    | some .throws => none
    | none => none
  match viaProvider with
  | some r => r
  | none =>
    if truthyStr s.inMemoryAuthToken then (s.inMemoryAuthToken, s)
    else if !env.isBrowser then (none, s)
    else if env.storageReadFails then (none, s)
    else (s.storedToken, { s with inMemoryAuthToken := s.storedToken })

/-! ### Headers -/

/-- Model of `Headers.set`: header names are normalized to lowercase; the first
matching header is overwritten, later duplicates are dropped, and an absent
name is appended. -/
def headerSet : List (String × String) → String → String → List (String × String)
  | [], k, v => [(lowerAscii k, v)]
  | (k', v') :: rest, k, v =>
    if k' = lowerAscii k then (lowerAscii k, v) :: rest.filter (fun p => p.1 != lowerAscii k)
    else (k', v') :: headerSet rest k v

/-- Header lookup by (lowercase) name. -/
def headerGet (headers : List (String × String)) (k : String) : Option String :=
  (headers.find? fun p => p.1 = lowerAscii k).map (·.2)

/-- The `defaultHeaders` constant of `src/lib/api.ts`, as stored in a
`Headers` object (names lowercased). -/
def defaultHeadersList : List (String × String) :=
  [("accept", "application/json"), ("content-type", "application/json")]

/-- Model of `withAuthHeaders`: defaults overlaid with the custom headers, plus an
`Authorization: Bearer <token>` header when `getAuthToken` yields a truthy
token.  Returns the headers together with the auth state as mutated by
`getAuthToken`. -/
def withAuthHeaders (env : Env) (s : AuthState) (custom : List (String × String)) :
    List (String × String) × AuthState :=
  let headers := custom.foldl (fun acc kv => headerSet acc kv.1 kv.2) defaultHeadersList
  let (token, s1) := getAuthToken env s
  match token with
  | some t => if t != "" then (headerSet headers "Authorization" ("Bearer " ++ t), s1) else (headers, s1)
  | none => (headers, s1)

/-! ### Login (`authApi.login`, `extractAuthToken`) -/

/-- Model of `extractAuthToken`: reads the first of `token`, `accessToken`,
`access_token` holding a string with non-blank trim from the resolved
response value; anything that is not a JSON object (absent value, raw
text, JSON string/number/boolean, and arrays — whose numeric keys never
match) yields `null`.  The token is returned untrimmed. -/
def extractAuthToken (v : RespValue) : Option String :=
  match v with
  | .json (.obj fields) =>
    ["token", "accessToken", "access_token"].foldl
      (fun acc k =>
        match acc with
        | some t => some t
        | none =>
          match objGet fields k with
          | some (.str val) => if (jsTrim val).length > 0 then some val else none
          | _ => none)
      none
  | _ => none

/-- The errors `authApi.login` can reject with: the `ApiError` surfaced by
`handleResponse`, or the plain `Error` thrown when no token field is
recognized in the response. -/
inductive LoginError where
  | api (e : ApiError)
  | tokenNotFound
deriving Repr, BEq, DecidableEq

/-- Model of `authApi.login`: issues the POST (whose header construction runs
`getAuthToken` and may mutate the in-memory cache), normalizes the
response, extracts a token, stores it with `setAuthToken` and resolves with
it; a missing token rejects with `tokenNotFound` leaving the stores
untouched. -/
def login (env : Env) (parse : String → Option JsValue) (resp : HttpResponse)
    (s : AuthState) : Except LoginError String × AuthState :=
  let s1 := (withAuthHeaders env s []).2
  match handleResponse parse resp with
  | .error e => (.error (.api e), s1)
  | .ok v =>
    match extractAuthToken v with
    | none => (.error .tokenNotFound, s1)
    | some t => (.ok t, setAuthToken env t s1)

/-! ### Members payloads (`membersApi.create` / `membersApi.update`) -/

/-- The `CreateMemberDto` interface from `src/lib/types.ts`: `name` and `email` required,
`phone` and `password` optional (`none` models an absent field, which
`JSON.stringify` omits from the request body, just as `delete` does). -/
structure CreateMemberDto where
  name : String
  email : String
  phone : Option String
  password : Option String
deriving Repr, BEq, DecidableEq

/-- The `Partial<CreateMemberDto>` type, the payload type of `membersApi.update`. -/
structure PartialCreateMemberDto where
  name : Option String
  email : Option String
  phone : Option String
  password : Option String
deriving Repr, BEq, DecidableEq

/-- The request body built by `membersApi.create`: a copy of the payload
whose `password` key is deleted when falsy (absent or the empty string). -/
def membersCreateBody (d : CreateMemberDto) : CreateMemberDto :=
  { d with password := if truthyStr d.password then d.password else none }

/-- The request body built by `membersApi.update`: same `password`
stripping over the partial payload. -/
def membersUpdateBody (d : PartialCreateMemberDto) : PartialCreateMemberDto :=
  { d with password := if truthyStr d.password then d.password else none }

/-! ## Helper lemmas -/

/-- Lemma: `getAuthToken` never writes the persistent store and never touches the
configured provider; only the in-memory cache may change. -/
theorem getAuthToken_preserves (env : Env) (s : AuthState) :
    ((getAuthToken env s).2).storedToken = s.storedToken ∧
    ((getAuthToken env s).2).provider = s.provider := by
  rcases s with ⟨mem, st, prov⟩
  rcases prov with _ | (_ | (_ | t))
  · simp only [getAuthToken]
    split_ifs <;> simp
  · simp only [getAuthToken]
    split_ifs <;> simp
  · simp only [getAuthToken]
    split_ifs <;> simp
  · simp only [getAuthToken]
    split_ifs <;> simp

/-- Lemma: `withAuthHeaders` threads exactly the state produced by
`getAuthToken`. -/
theorem withAuthHeaders_state (env : Env) (s : AuthState) (custom : List (String × String)) :
    (withAuthHeaders env s custom).2 = (getAuthToken env s).2 := by
  unfold withAuthHeaders
  rcases h : getAuthToken env s with ⟨tok, s1⟩
  rcases tok with _ | t
  · rfl
  · simp only []
    split_ifs <;> rfl

/-- When `getAuthToken` yields a non-empty token, `withAuthHeaders` (with
no custom headers, as every call site passes) carries
`Authorization: Bearer <token>`. -/
theorem auth_header_of_token (env : Env) (s : AuthState) (t : String)
    (ht : (getAuthToken env s).1 = some t) (hne : t ≠ "") :
    headerGet (withAuthHeaders env s []).1 "Authorization" = some ("Bearer " ++ t) := by
  have hbne : (t != "") = true := by simpa [bne_iff_ne] using hne
  have hl : lowerAscii "Authorization" = "authorization" := rfl
  unfold withAuthHeaders
  rcases hres : getAuthToken env s with ⟨tok, s1⟩
  rw [hres] at ht
  simp only at ht
  subst ht
  simp [hbne, headerSet, headerGet, defaultHeadersList, hl]

/-- When `getAuthToken` yields no token, `withAuthHeaders` (with no custom
headers) carries no `Authorization` header. -/
theorem auth_header_of_no_token (env : Env) (s : AuthState)
    (ht : (getAuthToken env s).1 = none) :
    headerGet (withAuthHeaders env s []).1 "Authorization" = none := by
  have hl : lowerAscii "Authorization" = "authorization" := rfl
  unfold withAuthHeaders
  rcases hres : getAuthToken env s with ⟨tok, s1⟩
  rw [hres] at ht
  simp only at ht
  subst ht
  simp [headerGet, defaultHeadersList, hl]

/-- With no provider configured and a truthy in-memory token,
`getAuthToken` returns the in-memory token. -/
theorem getAuthToken_inMemory (env : Env) (s : AuthState) (t : String)
    (hp : s.provider = none) (hm : s.inMemoryAuthToken = some t) (ht : t ≠ "") :
    (getAuthToken env s).1 = some t := by
  have hbne : (t != "") = true := by simpa [bne_iff_ne] using ht
  rcases s with ⟨mem, st, prov⟩
  simp only at hp hm
  subst hp
  subst hm
  simp [getAuthToken, truthyStr, hbne]

/-- A 2xx response with a non-empty JSON body parsing to a non-`null`
value resolves with that parsed value. -/
theorem handleResponse_ok_json (parse : String → Option JsValue) (resp : HttpResponse)
    (t : String) (v : JsValue)
    (h2xx : 200 ≤ resp.status) (hlt : resp.status < 300)
    (hbody : resp.bodyText = some t) (hne : 0 < t.length)
    (hjson : containsSubstr (resp.contentType.getD "") "application/json" = true)
    (hparse : parse t = some v) (hnn : v ≠ .null) :
    handleResponse parse resp = .ok (.json v) := by
  unfold handleResponse handledData
  rw [hbody]
  have hco : coalesce (.json v) = .json v := by
    cases v <;> simp_all [coalesce]
  simp [hne, hjson, hparse, h2xx, hlt, hco]

/-! ## Claims -/

/-- C8: for every payload passed to `membersApi.create` or
`membersApi.update`, the `password` field is removed from the request body
when it is absent or empty, sent as given when it is a non-empty string,
and every other field is sent unchanged. -/
theorem members_password_stripped (d : CreateMemberDto) (u : PartialCreateMemberDto) :
    ((d.password = none ∨ d.password = some "") → (membersCreateBody d).password = none) ∧
    (∀ pw, d.password = some pw → pw ≠ "" → (membersCreateBody d).password = some pw) ∧
    (membersCreateBody d).name = d.name ∧
    (membersCreateBody d).email = d.email ∧
    (membersCreateBody d).phone = d.phone ∧
    ((u.password = none ∨ u.password = some "") → (membersUpdateBody u).password = none) ∧
    (∀ pw, u.password = some pw → pw ≠ "" → (membersUpdateBody u).password = some pw) ∧
    (membersUpdateBody u).name = u.name ∧
    (membersUpdateBody u).email = u.email ∧
    (membersUpdateBody u).phone = u.phone := by
  refine ⟨?_, ?_, rfl, rfl, rfl, ?_, ?_, rfl, rfl, rfl⟩
  · rintro (h | h) <;> simp [membersCreateBody, h, truthyStr]
  · intro pw h hne
    simp [membersCreateBody, h, truthyStr, hne]
  · rintro (h | h) <;> simp [membersUpdateBody, h, truthyStr]
  · intro pw h hne
    simp [membersUpdateBody, h, truthyStr, hne]

/-- Witness for C8 at concrete payloads: an empty password is stripped
from a create body and a non-empty one is kept in an update body. -/
theorem members_password_stripped_witness :
    (membersCreateBody ⟨"ada", "ada@x.te", some "123", some ""⟩).password = none ∧
    (membersUpdateBody ⟨none, none, none, some "pw1"⟩).password = some "pw1" :=
  ⟨(members_password_stripped ⟨"ada", "ada@x.te", some "123", some ""⟩
      ⟨none, none, none, some "pw1"⟩).1 (Or.inr rfl),
   ((members_password_stripped ⟨"ada", "ada@x.te", some "123", some ""⟩
      ⟨none, none, none, some "pw1"⟩).2.2.2.2.2.2.1 "pw1" rfl (by decide))⟩

/-- C9: `getAuthToken` is total and never throws.  A throwing provider is
caught and the call behaves exactly as with no provider configured (same
token, same cache update, store untouched); a throwing store read is caught
and — when neither the provider nor the in-memory cache supplies a token —
the call returns `null` and leaves the state unchanged. -/
theorem getAuthToken_never_throws (env : Env) (s : AuthState) :
    (s.provider = some .throws →
      (getAuthToken env s).1 = (getAuthToken env { s with provider := none }).1 ∧
      ((getAuthToken env s).2).inMemoryAuthToken =
        ((getAuthToken env { s with provider := none }).2).inMemoryAuthToken ∧
      ((getAuthToken env s).2).storedToken = s.storedToken) ∧
    (env.storageReadFails = true →
      (∀ t, s.provider = some (.returns (some t)) → t = "") →
      truthyStr s.inMemoryAuthToken = false →
      (getAuthToken env s).1 = none ∧ (getAuthToken env s).2 = s) := by
  rcases s with ⟨mem, st, prov⟩
  constructor
  · rintro rfl
    refine ⟨?_, ?_, (getAuthToken_preserves env _).1⟩ <;>
      · simp only [getAuthToken]
        split_ifs <;> rfl
  · intro hfail hprov hmem
    rcases prov with _ | (_ | (_ | t))
    · simp [getAuthToken, hmem, hfail]
    · simp [getAuthToken, hmem, hfail]
    · simp [getAuthToken, hmem, hfail]
    · have := hprov t rfl
      subst this
      simp [getAuthToken, hmem, hfail]

/-- Witness for C9: a throwing provider over an empty cache outside a
working store read yields `null` without any state change. -/
theorem getAuthToken_never_throws_witness :
    (getAuthToken ⟨true, true, false⟩ ⟨none, some "x", some .throws⟩).1 = none ∧
    (getAuthToken ⟨true, true, false⟩ ⟨none, some "x", some .throws⟩).2 =
      ⟨none, some "x", some .throws⟩ :=
  (getAuthToken_never_throws ⟨true, true, false⟩ ⟨none, some "x", some .throws⟩).2
    rfl (by intro t h; cases h) rfl

/-- C10: a 2xx response whose content type indicates JSON but whose
non-empty body fails to parse resolves with the raw body text instead of
rejecting. -/
theorem json_parse_failure_resolves_text (parse : String → Option JsValue)
    (resp : HttpResponse) (t : String)
    (h2xx : 200 ≤ resp.status) (hlt : resp.status < 300)
    (hbody : resp.bodyText = some t) (hne : 0 < t.length)
    (hjson : containsSubstr (resp.contentType.getD "") "application/json" = true)
    (hparse : parse t = none) :
    handleResponse parse resp = .ok (.text t) := by
  unfold handleResponse handledData
  rw [hbody]
  simp [hne, hjson, hparse, coalesce, h2xx, hlt]

/-- Witness for C10: status 200, JSON content type, body `not json` under a
parser that rejects it. -/
theorem json_parse_failure_resolves_text_witness :
    handleResponse (fun _ => none) ⟨200, some "application/json", some "not json"⟩ =
      .ok (.text "not json") :=
  json_parse_failure_resolves_text (fun _ => none)
    ⟨200, some "application/json", some "not json"⟩ "not json"
    (by decide) (by decide) rfl (by decide) (by decide) rfl

/-- C4 (counterexample): the provider override is not a pure transient
substitution.  With in-memory token `old` and a provider returning `new`,
`getAuthToken` returns `new` *and overwrites the in-memory token with it*
(line `inMemoryAuthToken = providedToken` in the source), so the in-memory
state is altered. -/
theorem provider_override_counterexample :
    (getAuthToken ⟨true, false, false⟩
      ⟨some "old", some "old", some (.returns (some "new"))⟩).1 = some "new" ∧
    ((getAuthToken ⟨true, false, false⟩
      ⟨some "old", some "old", some (.returns (some "new"))⟩).2).inMemoryAuthToken
        ≠ some "old" := by
  refine ⟨rfl, ?_⟩
  intro h
  rw [show ((getAuthToken ⟨true, false, false⟩
      ⟨some "old", some "old", some (.returns (some "new"))⟩).2).inMemoryAuthToken
        = some "new" from rfl] at h
  exact absurd (Option.some.inj h) (by decide)

/-- C4 (amended): a configured provider returning a non-empty string takes
precedence over the stored token for the calls made while it is active and
never touches the persistent store, but the returned string is cached into
the in-memory token, replacing whatever was there. -/
theorem provider_override (env : Env) (s : AuthState) (t : String)
    (hp : s.provider = some (.returns (some t))) (ht : t ≠ "") :
    (getAuthToken env s).1 = some t ∧
    ((getAuthToken env s).2).storedToken = s.storedToken ∧
    ((getAuthToken env s).2).provider = s.provider ∧
    ((getAuthToken env s).2).inMemoryAuthToken = some t ∧
    headerGet (withAuthHeaders env s []).1 "Authorization" = some ("Bearer " ++ t) := by
  have hbne : (t != "") = true := by simpa [bne_iff_ne] using ht
  have hget : getAuthToken env s = (some t, { s with inMemoryAuthToken := some t }) := by
    rcases s with ⟨mem, st, prov⟩
    simp only at hp
    subst hp
    simp [getAuthToken, hbne]
  refine ⟨by rw [hget], by rw [hget], by rw [hget], by rw [hget],
    auth_header_of_token env s t (by rw [hget]) ht⟩

/-- Witness for C4 (amended) at a concrete state: the provider token wins
and lands in the in-memory cache and headers. -/
theorem provider_override_witness :
    (getAuthToken ⟨true, false, false⟩ ⟨none, some "st", some (.returns (some "pv"))⟩).1
      = some "pv" ∧
    ((getAuthToken ⟨true, false, false⟩
      ⟨none, some "st", some (.returns (some "pv"))⟩).2).storedToken = some "st" ∧
    headerGet (withAuthHeaders ⟨true, false, false⟩
      ⟨none, some "st", some (.returns (some "pv"))⟩ []).1 "Authorization"
        = some "Bearer pv" := by
  have h := provider_override ⟨true, false, false⟩
    ⟨none, some "st", some (.returns (some "pv"))⟩ "pv" rfl (by decide)
  exact ⟨h.1, h.2.1, h.2.2.2.2⟩

/-- C5: login round-trip.  For a login response whose JSON body is exactly
`{"accessToken":"abc123"}` (and no provider override active),
`authApi.login` resolves with `abc123`, the token is stored — always in
memory, and in the persistent store whenever the browser store write
works — and the next call carries `Authorization: Bearer abc123`. -/
theorem login_roundtrip (env : Env) (parse : String → Option JsValue)
    (resp : HttpResponse) (s : AuthState) (bt : String)
    (hprov : s.provider = none)
    (h2xx : 200 ≤ resp.status) (hlt : resp.status < 300)
    (hbody : resp.bodyText = some bt) (hne : 0 < bt.length)
    (hjson : containsSubstr (resp.contentType.getD "") "application/json" = true)
    (hparse : parse bt = some (.obj [("accessToken", .str "abc123")])) :
    (login env parse resp s).1 = .ok "abc123" ∧
    ((login env parse resp s).2).inMemoryAuthToken = some "abc123" ∧
    (env.isBrowser = true → env.storageWriteFails = false →
      ((login env parse resp s).2).storedToken = some "abc123") ∧
    headerGet (withAuthHeaders env ((login env parse resp s).2) []).1 "Authorization" =
      some "Bearer abc123" := by
  have hresp : handleResponse parse resp = .ok (.json (.obj [("accessToken", .str "abc123")])) :=
    handleResponse_ok_json parse resp bt _ h2xx hlt hbody hne hjson hparse (by simp)
  have hex : extractAuthToken (.json (.obj [("accessToken", .str "abc123")])) = some "abc123" := rfl
  have hlogin : login env parse resp s =
      (.ok "abc123", setAuthToken env "abc123" (withAuthHeaders env s []).2) := by
    unfold login
    rw [hresp]
    simp [hex]
  have hprov1 : ((withAuthHeaders env s []).2).provider = none := by
    rw [withAuthHeaders_state]
    rw [(getAuthToken_preserves env s).2]
    exact hprov
  have hst : ∀ s' : AuthState, setAuthToken env "abc123" s' =
      { s' with
        inMemoryAuthToken := some "abc123"
        storedToken := if env.isBrowser && !env.storageWriteFails then some "abc123"
          else s'.storedToken } := by
    intro s'
    unfold setAuthToken persistAuthToken
    rcases env with ⟨b, r, w⟩
    rcases b <;> rcases w <;> simp [truthyStr]
  refine ⟨by rw [hlogin], by rw [hlogin, hst], ?_, ?_⟩
  · intro hb hw
    rw [hlogin, hst]
    simp [hb, hw]
  · have h1 : ((login env parse resp s).2).provider = none := by
      rw [hlogin, hst]
      simpa using hprov1
    have h2 : ((login env parse resp s).2).inMemoryAuthToken = some "abc123" := by
      rw [hlogin, hst]
    exact auth_header_of_token env _ "abc123"
      (getAuthToken_inMemory env _ "abc123" h1 h2 (by decide)) (by decide)

/-- Witness for C5 at a concrete call: browser environment, working store,
no provider, response body `{"accessToken":"abc123"}`. -/
theorem login_roundtrip_witness :
    (login ⟨true, false, false⟩
      (fun t => if t = "\x7b\"accessToken\":\"abc123\"\x7d" then
        some (.obj [("accessToken", .str "abc123")]) else none)
      ⟨200, some "application/json", some "\x7b\"accessToken\":\"abc123\"\x7d"⟩
      ⟨none, none, none⟩).1 = .ok "abc123" ∧
    ((login ⟨true, false, false⟩
      (fun t => if t = "\x7b\"accessToken\":\"abc123\"\x7d" then
        some (.obj [("accessToken", .str "abc123")]) else none)
      ⟨200, some "application/json", some "\x7b\"accessToken\":\"abc123\"\x7d"⟩
      ⟨none, none, none⟩).2).inMemoryAuthToken = some "abc123" ∧
    ((login ⟨true, false, false⟩
      (fun t => if t = "\x7b\"accessToken\":\"abc123\"\x7d" then
        some (.obj [("accessToken", .str "abc123")]) else none)
      ⟨200, some "application/json", some "\x7b\"accessToken\":\"abc123\"\x7d"⟩
      ⟨none, none, none⟩).2).storedToken = some "abc123" ∧
    headerGet (withAuthHeaders ⟨true, false, false⟩
      ((login ⟨true, false, false⟩
        (fun t => if t = "\x7b\"accessToken\":\"abc123\"\x7d" then
          some (.obj [("accessToken", .str "abc123")]) else none)
        ⟨200, some "application/json", some "\x7b\"accessToken\":\"abc123\"\x7d"⟩
        ⟨none, none, none⟩).2) []).1 "Authorization" = some "Bearer abc123" := by
  have h := login_roundtrip ⟨true, false, false⟩
    (fun t => if t = "\x7b\"accessToken\":\"abc123\"\x7d" then
      some (.obj [("accessToken", .str "abc123")]) else none)
    ⟨200, some "application/json", some "\x7b\"accessToken\":\"abc123\"\x7d"⟩
    ⟨none, none, none⟩ "\x7b\"accessToken\":\"abc123\"\x7d"
    rfl (by decide) (by decide) rfl (by decide) (by decide) rfl
  exact ⟨h.1, h.2.1, h.2.2.1 rfl rfl, h.2.2.2⟩

/-- C6 (counterexample): a login whose response lacks every token field
rejects, but the login call does *not* leave the in-memory token state
unchanged — building the request headers runs `getAuthToken`, which caches
the persistent store's token into memory.  Starting from in-memory `null`
and stored `x`, the failed login leaves in-memory `x`. -/
theorem login_failure_mutates_memory :
    (login ⟨true, false, false⟩ (fun t => if t = "\x7b\x7d" then some (.obj []) else none)
      ⟨200, some "application/json", some "\x7b\x7d"⟩ ⟨none, some "x", none⟩).1
        = .error .tokenNotFound ∧
    ((login ⟨true, false, false⟩ (fun t => if t = "\x7b\x7d" then some (.obj []) else none)
      ⟨200, some "application/json", some "\x7b\x7d"⟩ ⟨none, some "x", none⟩).2).inMemoryAuthToken
        ≠ (none : Option String) := by
  refine ⟨rfl, ?_⟩
  intro h
  rw [show ((login ⟨true, false, false⟩
      (fun t => if t = "\x7b\x7d" then some (.obj []) else none)
      ⟨200, some "application/json", some "\x7b\x7d"⟩
      ⟨none, some "x", none⟩).2).inMemoryAuthToken = some "x" from rfl] at h
  cases h

/-- C6 (amended): a login whose successful response contains none of the
three recognized token fields as a non-empty string rejects with the
token-extraction error and stores no token: the persistent store is
untouched and the final state is exactly the one left by building the
request headers (whose `getAuthToken` call may refresh the in-memory cache
from the provider or the store). -/
theorem login_no_token_no_store (env : Env) (parse : String → Option JsValue)
    (resp : HttpResponse) (s : AuthState) (v : RespValue)
    (hresp : handleResponse parse resp = .ok v)
    (hex : extractAuthToken v = none) :
    (login env parse resp s).1 = .error .tokenNotFound ∧
    (login env parse resp s).2 = (withAuthHeaders env s []).2 ∧
    ((login env parse resp s).2).storedToken = s.storedToken := by
  have hlogin : login env parse resp s = (.error .tokenNotFound, (withAuthHeaders env s []).2) := by
    unfold login
    rw [hresp]
    simp [hex]
  refine ⟨by rw [hlogin], by rw [hlogin], ?_⟩
  rw [hlogin]
  simp only [withAuthHeaders_state]
  exact (getAuthToken_preserves env s).1

/-- Witness for C6 (amended): a `{}` body under a fresh state leaves
everything empty and rejects. -/
theorem login_no_token_no_store_witness :
    (login ⟨true, false, false⟩ (fun t => if t = "\x7b\x7d" then some (.obj []) else none)
      ⟨200, some "application/json", some "\x7b\x7d"⟩ ⟨none, none, none⟩).1
        = .error .tokenNotFound ∧
    ((login ⟨true, false, false⟩ (fun t => if t = "\x7b\x7d" then some (.obj []) else none)
      ⟨200, some "application/json", some "\x7b\x7d"⟩ ⟨none, none, none⟩).2).storedToken
        = none := by
  have h := login_no_token_no_store ⟨true, false, false⟩
    (fun t => if t = "\x7b\x7d" then some (.obj []) else none)
    ⟨200, some "application/json", some "\x7b\x7d"⟩ ⟨none, none, none⟩
    (.json (.obj [])) rfl rfl
  exact ⟨h.1, h.2.2⟩

/-- C7 (counterexample): after a logout that clears both stores, a call
made while a provider returning `p` is configured still carries
`Authorization: Bearer p`, so "every subsequent API call carries no
Authorization header" fails as stated. -/
theorem logout_counterexample :
    (clearAuthToken ⟨true, false, false⟩
      ⟨some "tok", some "tok", some (.returns (some "p"))⟩).inMemoryAuthToken = none ∧
    (clearAuthToken ⟨true, false, false⟩
      ⟨some "tok", some "tok", some (.returns (some "p"))⟩).storedToken = none ∧
    headerGet (withAuthHeaders ⟨true, false, false⟩
      (clearAuthToken ⟨true, false, false⟩
        ⟨some "tok", some "tok", some (.returns (some "p"))⟩) []).1 "Authorization"
      = some "Bearer p" :=
  ⟨rfl, rfl, rfl⟩

/-- C7 (amended): in a browser whose store update succeeds, logout clears
both the in-memory token and the persistent entry, and every subsequent
call made while no provider supplies a non-empty token carries no
`Authorization` header. -/
theorem logout_clears (env : Env) (s : AuthState)
    (hb : env.isBrowser = true) (hw : env.storageWriteFails = false)
    (hprov : ∀ t, s.provider = some (.returns (some t)) → t = "") :
    (clearAuthToken env s).inMemoryAuthToken = none ∧
    (clearAuthToken env s).storedToken = none ∧
    headerGet (withAuthHeaders env (clearAuthToken env s) []).1 "Authorization" = none := by
  have hclear : clearAuthToken env s = ⟨none, none, s.provider⟩ := by
    unfold clearAuthToken persistAuthToken
    simp [hb, hw, truthyStr]
  refine ⟨by rw [hclear], by rw [hclear], ?_⟩
  apply auth_header_of_no_token
  rw [hclear]
  rcases hp : s.provider with _ | (_ | (_ | t))
  · simp [getAuthToken, truthyStr]
  · simp [getAuthToken, truthyStr]
  · simp [getAuthToken, truthyStr]
  · have := hprov t hp
    subst this
    simp [getAuthToken, truthyStr]

/-- Witness for C7 (amended): logging out of a populated browser state
with no provider strips the token everywhere and the next call's headers
carry no `Authorization`. -/
theorem logout_clears_witness :
    (clearAuthToken ⟨true, false, false⟩ ⟨some "tok", some "tok", none⟩).inMemoryAuthToken
      = none ∧
    (clearAuthToken ⟨true, false, false⟩ ⟨some "tok", some "tok", none⟩).storedToken = none ∧
    headerGet (withAuthHeaders ⟨true, false, false⟩
      (clearAuthToken ⟨true, false, false⟩ ⟨some "tok", some "tok", none⟩) []).1 "Authorization"
      = none :=
  logout_clears ⟨true, false, false⟩ ⟨some "tok", some "tok", none⟩ rfl rfl
    (by intro t h; cases h)

/-- C1 (counterexample): for a 400 response whose JSON body is the number
`42`, the claim demands the trimmed raw body text `42` as the message (no
`message` field is present), but the code only uses the body text when the
handled value is a string — a parsed JSON number falls through to the
`HTTP 400` fallback. -/
theorem error_message_counterexample :
    handleResponse (fun t => if t = "42" then some (.num 42) else none)
      ⟨400, some "application/json", some "42"⟩ = .error ⟨400, "HTTP 400"⟩ ∧
    handleResponse (fun t => if t = "42" then some (.num 42) else none)
      ⟨400, some "application/json", some "42"⟩ ≠ .error ⟨400, "42"⟩ := by
  refine ⟨rfl, ?_⟩
  intro h
  rw [show handleResponse (fun t => if t = "42" then some (.num 42) else none)
      ⟨400, some "application/json", some "42"⟩ = .error ⟨400, "HTTP 400"⟩ from rfl] at h
  exact absurd (Except.error.inj h) (by decide)

/-- C1 (amended): every response with status ≥ 300 rejects with an
`ApiError` whose status code equals the response status and whose message
is: the stringified `message` field when the JSON-parsed body is an object
with a truthy `message`; the trimmed string when the handled body value is
a string (raw text under a non-JSON content type, unparseable JSON text,
or a JSON string body) with non-blank trim; and `HTTP <status>` otherwise
(empty body, object with missing or falsy `message`, or a JSON
number/boolean/array/null body). -/
theorem error_rejection (parse : String → Option JsValue) (resp : HttpResponse)
    (h3xx : 300 ≤ resp.status) :
    ∃ msg, handleResponse parse resp = .error ⟨resp.status, msg⟩ ∧
      ((resp.bodyText = none ∨ resp.bodyText = some "") →
        msg = "HTTP " ++ toString resp.status) ∧
      (∀ t fields m, resp.bodyText = some t → 0 < t.length →
        containsSubstr (resp.contentType.getD "") "application/json" = true →
        parse t = some (.obj fields) → objGet fields "message" = some m →
        m.truthy = true → msg = m.toStringJs) ∧
      (∀ t fields, resp.bodyText = some t → 0 < t.length →
        containsSubstr (resp.contentType.getD "") "application/json" = true →
        parse t = some (.obj fields) →
        (∀ m, objGet fields "message" = some m → m.truthy = false) →
        msg = "HTTP " ++ toString resp.status) ∧
      (∀ t, resp.bodyText = some t → 0 < t.length →
        containsSubstr (resp.contentType.getD "") "application/json" = false →
        msg = if 0 < (jsTrim t).length then jsTrim t else "HTTP " ++ toString resp.status) ∧
      (∀ t, resp.bodyText = some t → 0 < t.length →
        containsSubstr (resp.contentType.getD "") "application/json" = true →
        parse t = none →
        msg = if 0 < (jsTrim t).length then jsTrim t else "HTTP " ++ toString resp.status) ∧
      (∀ t s, resp.bodyText = some t → 0 < t.length →
        containsSubstr (resp.contentType.getD "") "application/json" = true →
        parse t = some (.str s) →
        msg = if 0 < (jsTrim s).length then jsTrim s else "HTTP " ++ toString resp.status) ∧
      (∀ t v, resp.bodyText = some t → 0 < t.length →
        containsSubstr (resp.contentType.getD "") "application/json" = true →
        parse t = some v → (∀ fields, v ≠ .obj fields) → (∀ s, v ≠ .str s) →
        msg = "HTTP " ++ toString resp.status) := by
  have hko : ¬(200 ≤ resp.status ∧ resp.status < 300) := by omega
  refine ⟨errMessage resp.status (handledData parse resp), ?_, ?_, ?_, ?_, ?_, ?_, ?_, ?_⟩
  · unfold handleResponse
    simp [hko]
  · rintro (hb | hb) <;> simp [handledData, hb, errMessage]
  · intro t fields m hb hlen hct hp hg htr
    simp [handledData, hb, hlen, hct, hp, errMessage, hg, htr]
  · intro t fields hb hlen hct hp hfalsy
    simp only [handledData, hb, hlen, if_pos, hct, if_true, hp, errMessage]
    rcases hg : objGet fields "message" with _ | m
    · simp
    · simp [hfalsy m hg]
  · intro t hb hlen hct
    simp [handledData, hb, hlen, hct, errMessage]
  · intro t hb hlen hct hp
    simp [handledData, hb, hlen, hct, hp, errMessage]
  · intro t s hb hlen hct hp
    simp [handledData, hb, hlen, hct, hp, errMessage]
  · intro t v hb hlen hct hp hobj hstr
    simp only [handledData, hb, hlen, if_pos, hct, if_true, hp, errMessage]

/-- Witness for C1 (amended): a 404 with plain-text body `  oops  `
rejects with status 404 and the trimmed message `oops`. -/
theorem error_rejection_witness :
    handleResponse (fun _ => none) ⟨404, some "text/plain", some "  oops  "⟩ =
      .error ⟨404, "oops"⟩ := by
  obtain ⟨msg, h1, _, _, _, h5, _, _, _⟩ :=
    error_rejection (fun _ => none) ⟨404, some "text/plain", some "  oops  "⟩ (by decide)
  have hm := h5 "  oops  " rfl (by decide) (by decide)
  rw [h1, hm]
  rfl

/-- C2 (counterexample): a 200 response with JSON content type and body
`null` parses to JSON `null`, but the final `?? undefined` makes the call
resolve with the absent value rather than the JSON-parsed body. -/
theorem success_null_counterexample :
    handleResponse (fun t => if t = "null" then some .null else none)
      ⟨200, some "application/json", some "null"⟩ = .ok .absent ∧
    handleResponse (fun t => if t = "null" then some .null else none)
      ⟨200, some "application/json", some "null"⟩ ≠ .ok (.json .null) := by
  refine ⟨rfl, ?_⟩
  intro h
  rw [show handleResponse (fun t => if t = "null" then some .null else none)
      ⟨200, some "application/json", some "null"⟩ = .ok .absent from rfl] at h
  exact RespValue.noConfusion (Except.ok.inj h)

/-- C2 (amended): every response with status in [200,300) resolves (never
rejects): with the absent value when the body is empty or unreadable, with
the raw text when the content type is not JSON, with the JSON-parsed body
when the content type is JSON and the body parses to a non-`null` value,
and with the absent value when it parses to JSON `null`. -/
theorem success_resolution (parse : String → Option JsValue) (resp : HttpResponse)
    (h2xx : 200 ≤ resp.status) (hlt : resp.status < 300) :
    (∃ v, handleResponse parse resp = .ok v) ∧
    ((resp.bodyText = none ∨ resp.bodyText = some "") →
      handleResponse parse resp = .ok .absent) ∧
    (∀ t, resp.bodyText = some t → 0 < t.length →
      containsSubstr (resp.contentType.getD "") "application/json" = false →
      handleResponse parse resp = .ok (.text t)) ∧
    (∀ t v, resp.bodyText = some t → 0 < t.length →
      containsSubstr (resp.contentType.getD "") "application/json" = true →
      parse t = some v → v ≠ .null →
      handleResponse parse resp = .ok (.json v)) ∧
    (∀ t, resp.bodyText = some t → 0 < t.length →
      containsSubstr (resp.contentType.getD "") "application/json" = true →
      parse t = some .null →
      handleResponse parse resp = .ok .absent) := by
  refine ⟨⟨coalesce (handledData parse resp), ?_⟩, ?_, ?_, ?_, ?_⟩
  · unfold handleResponse
    simp [h2xx, hlt]
  · rintro (hb | hb) <;>
      simp [handleResponse, handledData, hb, h2xx, hlt, coalesce]
  · intro t hb hlen hct
    simp [handleResponse, handledData, hb, hlen, hct, h2xx, hlt, coalesce]
  · intro t v hb hlen hct hp hnn
    exact handleResponse_ok_json parse resp t v h2xx hlt hb hlen hct hp hnn
  · intro t hb hlen hct hp
    simp [handleResponse, handledData, hb, hlen, hct, hp, h2xx, hlt, coalesce]

/-- Witness for C2 (amended): a 204 with an empty body resolves with the
absent value, and a 200 text body resolves with the raw text. -/
theorem success_resolution_witness :
    handleResponse (fun _ => none) ⟨204, none, some ""⟩ = .ok .absent ∧
    handleResponse (fun _ => none) ⟨200, some "text/plain", some "hi"⟩ = .ok (.text "hi") :=
  ⟨(success_resolution (fun _ => none) ⟨204, none, some ""⟩ (by decide) (by decide)).2.1
      (Or.inr rfl),
   (success_resolution (fun _ => none) ⟨200, some "text/plain", some "hi"⟩
      (by decide) (by decide)).2.2.1 "hi" rfl (by decide) (by decide)⟩

/-- Concatenating on the left preserves infixes. -/
theorem infix_append_left {α : Type} {l m : List α} (pre : List α) (h : l <:+: m) :
    l <:+: pre ++ m := by
  obtain ⟨s, t, rfl⟩ := h
  exact ⟨pre ++ s, t, by simp⟩

/-- With pairwise-distinct keys, a key determines its value. -/
theorem key_unique {β : Type} {l : List (String × β)} (h : (l.map Prod.fst).Nodup)
    {k : String} {a b : β} (h1 : (k, a) ∈ l) (h2 : (k, b) ∈ l) : a = b := by
  induction l with
  | nil => cases h1
  | cons hd tl ih =>
    rw [List.map_cons, List.nodup_cons] at h
    rcases List.mem_cons.mp h1 with he1 | hm1 <;> rcases List.mem_cons.mp h2 with he2 | hm2
    · rw [← he1] at he2
      exact (Prod.mk.injEq _ _ _ _ ▸ he2).2.symm
    · exfalso
      apply h.1
      rw [← he1]
      show k ∈ List.map Prod.fst tl
      exact List.mem_map_of_mem Prod.fst hm2
    · exfalso
      apply h.1
      rw [← he2]
      show k ∈ List.map Prod.fst tl
      exact List.mem_map_of_mem Prod.fst hm1
    · exact ih h.2 hm1 hm2

/-- Setting a fresh name via `URLSearchParams.set` appends the pair. -/
theorem searchParamsSet_not_mem (acc : List (String × String)) (k v : String)
    (h : ∀ p ∈ acc, p.1 ≠ k) : searchParamsSet acc k v = acc ++ [(k, v)] := by
  induction acc with
  | nil => rfl
  | cons hd tl ih =>
    obtain ⟨k1, v1⟩ := hd
    have hk : k1 ≠ k := h (k1, v1) (List.mem_cons_self _ _)
    simp only [searchParamsSet, if_neg hk, List.cons_append, List.cons.injEq, true_and]
    exact ih (fun p hp => h p (List.mem_cons_of_mem _ hp))

/-- The `forEach`/`set` loop of `buildUrl`, started from pairs whose names
are all fresh for the (name-wise duplicate-free) query, appends exactly
the non-omitted entries with stringified values, in order. -/
theorem buildQueryPairs_go (query : List (String × QueryParamValue)) :
    ∀ acc : List (String × String),
    (∀ kv ∈ query, ∀ p ∈ acc, p.1 ≠ kv.1) →
    (query.map Prod.fst).Nodup →
    query.foldl
      (fun acc kv => if kv.2.omitted then acc else searchParamsSet acc kv.1 kv.2.toStringJs)
      acc
      = acc ++ (query.filter (fun kv => !kv.2.omitted)).map (fun kv => (kv.1, kv.2.toStringJs)) := by
  induction query with
  | nil =>
    intro acc _ _
    simp
  | cons hd tl ih =>
    intro acc hdisj hnd
    rw [List.map_cons, List.nodup_cons] at hnd
    rw [List.foldl_cons]
    cases homit : hd.2.omitted with
    | true =>
      rw [show (if (true : Bool) = true then acc
        else searchParamsSet acc hd.1 hd.2.toStringJs) = acc from rfl]
      rw [ih acc (fun kv hkv p hp => hdisj kv (List.mem_cons_of_mem _ hkv) p hp) hnd.2]
      simp [List.filter_cons, homit]
    | false =>
      rw [show (if (false : Bool) = true then acc
        else searchParamsSet acc hd.1 hd.2.toStringJs)
        = searchParamsSet acc hd.1 hd.2.toStringJs from rfl]
      rw [searchParamsSet_not_mem acc hd.1 hd.2.toStringJs
        (fun p hp => hdisj hd (List.mem_cons_self _ _) p hp)]
      rw [ih (acc ++ [(hd.1, hd.2.toStringJs)]) ?_ hnd.2]
      · simp [List.filter_cons, homit]
      · intro kv hkv p hp
        rcases List.mem_append.mp hp with hpa | hps
        · exact hdisj kv (List.mem_cons_of_mem _ hkv) p hpa
        · rw [List.mem_singleton.mp hps]
          intro hq
          exact hnd.1 (hq ▸ List.mem_map_of_mem Prod.fst hkv)

/-- Evaluating `buildQueryPairs` on a duplicate-free query keeps exactly the
non-omitted entries, stringified, in order. -/
theorem buildQueryPairs_eq (query : List (String × QueryParamValue))
    (hnd : (query.map Prod.fst).Nodup) :
    buildQueryPairs query
      = (query.filter (fun kv => !kv.2.omitted)).map (fun kv => (kv.1, kv.2.toStringJs)) := by
  have h := buildQueryPairs_go query [] (by simp) hnd
  simpa [buildQueryPairs] using h

/-- Every accumulated pair appears percent-encoded as `name=value` inside
the serialized query string. -/
theorem infix_serializeQuery (pairs : List (String × String)) (p : String × String)
    (hp : p ∈ pairs) :
    (encodeForm p.1 ++ "=" ++ encodeForm p.2).data <:+: (serializeQuery pairs).data := by
  induction pairs with
  | nil => cases hp
  | cons hd tl ih =>
    rcases List.mem_cons.mp hp with rfl | hmem
    · cases tl with
      | nil => exact List.infix_rfl
      | cons q rest =>
        refine ⟨[], '&' :: (serializeQuery (q :: rest)).data, ?_⟩
        rw [show (serializeQuery (p :: q :: rest)).data
          = (encodeForm p.1 ++ "=" ++ encodeForm p.2 ++ "&").data
            ++ (serializeQuery (q :: rest)).data from rfl]
        rw [show (encodeForm p.1 ++ "=" ++ encodeForm p.2 ++ "&").data
          = (encodeForm p.1 ++ "=" ++ encodeForm p.2).data ++ ['&'] from rfl]
        simp
    · cases tl with
      | nil => cases hmem
      | cons q rest =>
        have h2 := ih hmem
        rw [show (serializeQuery (hd :: q :: rest)).data
          = (encodeForm hd.1 ++ "=" ++ encodeForm hd.2 ++ "&").data
            ++ (serializeQuery (q :: rest)).data from rfl]
        exact infix_append_left _ h2

/-- C3: for every query object with pairwise-distinct keys (as every
JavaScript object has), an entry whose value is null/undefined or
stringifies to a blank string is omitted from the URL, and every other
entry appears among the query pairs with its stringified value and,
percent-encoded as `key=value`, inside the built URL. -/
theorem query_serialization (query : List (String × QueryParamValue))
    (hnd : (query.map Prod.fst).Nodup) (k : String) (v : QueryParamValue)
    (hmem : (k, v) ∈ query) :
    (v.omitted = true → ∀ p ∈ buildQueryPairs query, p.1 ≠ k) ∧
    (v.omitted = false →
      (k, v.toStringJs) ∈ buildQueryPairs query ∧
      ∀ baseUrl path, (encodeForm k ++ "=" ++ encodeForm v.toStringJs).data
        <:+: (buildUrl baseUrl path query).data) := by
  constructor
  · intro homit p hp hpk
    rw [buildQueryPairs_eq query hnd] at hp
    obtain ⟨kv, hkvf, rfl⟩ := List.mem_map.mp hp
    obtain ⟨hkvq, hkeep⟩ := List.mem_filter.mp hkvf
    have hkv2 : kv.2 = v := by
      apply key_unique hnd _ hmem
      rw [← hpk]
      simpa using hkvq
    rw [hkv2, homit] at hkeep
    cases hkeep
  · intro homit
    have hpairs : (k, v.toStringJs) ∈ buildQueryPairs query := by
      rw [buildQueryPairs_eq query hnd]
      exact List.mem_map.mpr ⟨(k, v), List.mem_filter.mpr ⟨hmem, by simp [homit]⟩, rfl⟩
    refine ⟨hpairs, ?_⟩
    intro baseUrl path
    have hne : (buildQueryPairs query).isEmpty = false := by
      cases hq : buildQueryPairs query with
      | nil =>
        rw [hq] at hpairs
        cases hpairs
      | cons a as => rfl
    have hinf := infix_serializeQuery (buildQueryPairs query) (k, v.toStringJs) hpairs
    simp only [buildUrl, hne, Bool.false_eq_true, if_false]
    rw [show ∀ a b : String, (a ++ b).data = a.data ++ b.data from fun _ _ => rfl]
    apply infix_append_left
    exact List.infix_cons hinf

/-- Witness for C3: in the query `{q: "a b", skip: null}`, `skip` is
dropped and `q=a+b` appears percent-encoded inside the built URL. -/
theorem query_serialization_witness :
    ("q", QueryParamValue.toStringJs (.str "a b"))
      ∈ buildQueryPairs [("q", .str "a b"), ("skip", .null)] ∧
    (encodeForm "q" ++ "=" ++ encodeForm (QueryParamValue.toStringJs (.str "a b"))).data
      <:+: (buildUrl "https://api.example" "/books"
        [("q", .str "a b"), ("skip", .null)]).data := by
  have h := (query_serialization [("q", .str "a b"), ("skip", .null)] (by decide) "q"
    (.str "a b") (List.mem_cons_self _ _)).2 (by decide)
  exact ⟨h.1, h.2 "https://api.example" "/books"⟩

end ApiClient
